import Mathlib

/-!
Shallow embedding of `src/pdq-worker.js` (RRC PDQ production-data proxy,
a Cloudflare Worker).  Pure parsing/extraction logic is translated into
executable Lean functions over `List Char` / `String`; the network layer
is modelled by passing the upstream response text (and, for session
acquisition, the `Set-Cookie` header values) as explicit inputs, and the
request router is modelled as a pure function from the parsed request to
an `Action` describing what the worker does next (respond immediately or
proceed to an outbound upstream call).

Regex scanning: every regex in the source is "deterministic" in the sense
that each character class is delimited by a literal whose first character
the class excludes, so greedy/lazy matching degenerates to
take-maximal-run / first-occurrence scanning.  The scanners below
implement exactly that, advancing one character on a failed match and
jumping past the match on success — the semantics of repeated
`regex.exec` with the `g` flag (no empty match is possible since every
pattern contains a nonempty literal).  Scanners use an explicit fuel
argument instantiated with the input length; every step consumes at least
one input character, so this fuel is always sufficient.
-/

namespace PDQ

/-- Whitespace as used by JS `String.prototype.trim` and the regex class
`\s`, restricted to the characters that can actually occur here
(ASCII whitespace plus NBSP). -/
def jsWS (c : Char) : Bool :=
  c = ' ' || c = '\t' || c = '\n' || c = '\r' ||
  c = Char.ofNat 11 || c = Char.ofNat 12 || c = Char.ofNat 0xA0

/-- Strip leading and trailing `jsWS` characters (JS `.trim()`). -/
def trimChars (l : List Char) : List Char :=
  ((l.dropWhile jsWS).reverse.dropWhile jsWS).reverse

/-- String-level JS `.trim()`. -/
def jsTrim (s : String) : String :=
  String.mk (trimChars s.data)

/-- String-level JS `.toUpperCase()` (ASCII). -/
def jsToUpper (s : String) : String :=
  String.mk (s.data.map Char.toUpper)

/-- If `lit` is a prefix of `l`, return the remainder of `l`, else `none`. -/
def dropLit : List Char → List Char → Option (List Char)
  | [], l => some l
  | _ :: _, [] => none
  | c :: cs, d :: ds => if c = d then dropLit cs ds else none

/-- Case-insensitive variant of `dropLit` (for the `i` regex flag). -/
def dropLitCI : List Char → List Char → Option (List Char)
  | [], l => some l
  | _ :: _, [] => none
  | c :: cs, d :: ds => if c.toLower = d.toLower then dropLitCI cs ds else none

/-- Greedy nonempty character-class match `[C]+`: the maximal run of
characters satisfying `p`, failing when that run is empty. -/
def takeWhile1 (p : Char → Bool) (l : List Char) : Option (List Char × List Char) :=
  match l.takeWhile p with
  | [] => none
  | c :: cs => some (c :: cs, l.dropWhile p)

/-- Scan for the first occurrence of the literal `pat`; return the text
before it and the text after it. -/
def takeUntilLit (pat : List Char) : List Char → Option (List Char × List Char)
  | [] => (dropLit pat []).map (fun r => ([], r))
  | c :: rest =>
    match dropLit pat (c :: rest) with
    | some r => some ([], r)
    | none => (takeUntilLit pat rest).map (fun p => (c :: p.1, p.2))

/-- Case-insensitive `takeUntilLit`. -/
def takeUntilLitCI (pat : List Char) : List Char → Option (List Char × List Char)
  | [] => (dropLitCI pat []).map (fun r => ([], r))
  | c :: rest =>
    match dropLitCI pat (c :: rest) with
    | some r => some ([], r)
    | none => (takeUntilLitCI pat rest).map (fun p => (c :: p.1, p.2))

/-- Drop everything through the first occurrence of `pat` (used for
`String.prototype.includes` and for locating `class="DataGrid">`). -/
def dropThrough (pat : List Char) : List Char → Option (List Char)
  | [] => dropLit pat []
  | c :: rest =>
    match dropLit pat (c :: rest) with
    | some r => some r
    | none => dropThrough pat rest

/-- JS `haystack.includes(needle)`. -/
def containsLit (pat : List Char) (l : List Char) : Bool :=
  (dropThrough pat l).isSome

/-- String-level `includes`. -/
def containsStr (pat s : String) : Bool :=
  containsLit pat.data s.data

/-- JS `parseInt` on an already-produced cell string, restricted to the
decimal forms that occur here: skip leading whitespace, optional sign,
then a maximal run of decimal digits; `none` models `NaN`. -/
def parseIntJS (l : List Char) : Option Int :=
  let l1 := l.dropWhile jsWS
  match l1 with
  | '-' :: r =>
    match r.takeWhile Char.isDigit with
    | [] => none
    | d => some (-(d.foldl (fun a c => 10 * a + (c.toNat - 48)) 0 : Nat))
  | '+' :: r =>
    match r.takeWhile Char.isDigit with
    | [] => none
    | d => some ((d.foldl (fun a c => 10 * a + (c.toNat - 48)) 0 : Nat))
  | r =>
    match r.takeWhile Char.isDigit with
    | [] => none
    | d => some ((d.foldl (fun a c => 10 * a + (c.toNat - 48)) 0 : Nat))

/-- JS `parseInt(s) || 0`: `NaN` (and `0` itself) becomes `0`. -/
def intOrZero (s : String) : Int :=
  match parseIntJS s.data with
  | some n => n
  | none => 0

/-! ## Session acquisition (`getSession`, lines 53–71) -/

/-- Session value `{ id, cookie }` returned by `getSession`. -/
structure Session where
  id : String
  cookie : String
deriving Repr, DecidableEq

/-- Character class `[^";&\s]` of the body session regex. -/
def jsidChar (c : Char) : Bool :=
  !(c = '"' || c = ';' || c = '&' || jsWS c)

/-- First match of `/jsessionid=([^";&\s]+)/` in the body text: scan
left to right; at each position require the literal then a nonempty run
of `jsidChar`; on failure advance one character. -/
def findJsession : Nat → List Char → Option (List Char)
  | 0, _ => none
  | _ + 1, [] => none
  | fuel + 1, c :: rest =>
    match (dropLit "jsessionid=".data (c :: rest)).bind (takeWhile1 jsidChar) with
    | some (v, _) => some v
    | none => findJsession fuel rest

/-- First match of `/JSESSIONID=([^;]+)/` in one `Set-Cookie` header. -/
def findCookieVal : Nat → List Char → Option (List Char)
  | 0, _ => none
  | _ + 1, [] => none
  | fuel + 1, c :: rest =>
    match (dropLit "JSESSIONID=".data (c :: rest)).bind
        (takeWhile1 (fun ch => ch ≠ ';')) with
    | some (v, _) => some v
    | none => findCookieVal fuel rest

/-- The `for (const c of cookies)` loop of lines 64–67: the first header
whose `JSESSIONID=` pattern matches supplies the cookie value. -/
def firstCookie : List String → Option String
  | [] => none
  | h :: t =>
    match findCookieVal h.data.length h.data with
    | some v => some (String.mk v)
    | none => firstCookie t

/-- Embedding of `getSession` as a function of the upstream response:
`body` is the (redirect-followed) response text, `setCookies` the list of
`Set-Cookie` header values (empty when `headers.getAll` is unavailable).
`Except.error` models the thrown `Error('No session')`. -/
def getSessionOf (body : String) (setCookies : List String) : Except String Session :=
  match findJsession body.data.length body.data with
  | none => Except.error "No session"
  | some v =>
    let idv := String.mk v
    match firstCookie setCookies with
    | some c => Except.ok ⟨idv, "JSESSIONID=" ++ c⟩
    | none => Except.ok ⟨idv, "JSESSIONID=" ++ idv⟩

/-! ## Lease search extraction (`searchLeases`, lines 96–109) -/

/-- Raw captures of one match of the option regex
`/option value="(\d+)\^0\^([^^]+)\^1\^([OG])\^2\^([^^]+)\^3\^([^"]*)">\(([^)]+)\):([^<]+)/`. -/
structure LeaseRaw where
  num : List Char
  lname : List Char
  wt : Char
  dist : List Char
  wellNum : List Char
  did : List Char
  dname : List Char
deriving Repr, DecidableEq

/-- The single-character class `[OG]`. -/
def takeOG : List Char → Option (Char × List Char)
  | [] => none
  | c :: r => if c = 'O' || c = 'G' then some (c, r) else none

/-- Attempt the option regex at the head of `l`; on success return the
captures and the remaining input after the match. -/
def matchLeaseAt (l : List Char) : Option (LeaseRaw × List Char) :=
  (dropLit "option value=\"".data l).bind fun r0 =>
  (takeWhile1 Char.isDigit r0).bind fun p1 =>
  (dropLit "^0^".data p1.2).bind fun r2 =>
  (takeWhile1 (fun c => c ≠ '^') r2).bind fun p2 =>
  (dropLit "^1^".data p2.2).bind fun r4 =>
  (takeOG r4).bind fun p3 =>
  (dropLit "^2^".data p3.2).bind fun r6 =>
  (takeWhile1 (fun c => c ≠ '^') r6).bind fun p4 =>
  (dropLit "^3^".data p4.2).bind fun r8 =>
  (fun p5 : List Char × List Char =>
    (dropLit "\">(".data p5.2).bind fun r10 =>
    (takeWhile1 (fun c => c ≠ ')') r10).bind fun p6 =>
    (dropLit "):".data p6.2).bind fun r12 =>
    (takeWhile1 (fun c => c ≠ '<') r12).bind fun p7 =>
    some (⟨p1.1, p2.1, p3.1, p4.1, p5.1, p6.1, p7.1⟩, p7.2))
  (r8.takeWhile (fun c => c ≠ '"'), r8.dropWhile (fun c => c ≠ '"'))

/-- Uncapped `regex.exec` loop: all matches in document order. -/
def scanLeases : Nat → List Char → List LeaseRaw
  | 0, _ => []
  | _ + 1, [] => []
  | fuel + 1, c :: rest =>
    match matchLeaseAt (c :: rest) with
    | some (r, rest2) => r :: scanLeases fuel rest2
    | none => scanLeases fuel rest

/-- The capped loop `while ((match = regex.exec(html)) !== null && leases.length < 50)`:
`cap` is the number of free slots remaining. -/
def scanLeasesCapped : Nat → Nat → List Char → List LeaseRaw
  | 0, _, _ => []
  | _ + 1, _, [] => []
  | fuel + 1, cap, c :: rest =>
    match matchLeaseAt (c :: rest) with
    | some (r, rest2) =>
      match cap with
      | 0 => []
      | cap' + 1 => r :: scanLeasesCapped fuel cap' rest2
    | none => scanLeasesCapped fuel cap rest

/-- One structured lease search result. -/
structure LeaseRecord where
  leaseNumber : String
  leaseName : String
  wellType : String
  district : String
  wellNumber : String
  displayId : String
  displayName : String
deriving Repr, DecidableEq

/-- Lines 100–108: build the record pushed for one regex match, with the
trims and the `.replace(/^null$/, '')` normalization of the well number. -/
def mkLeaseRecord (r : LeaseRaw) : LeaseRecord :=
  { leaseNumber := String.mk r.num
    leaseName := String.mk (trimChars r.lname)
    wellType := if r.wt = 'O' then "Oil" else "Gas"
    district := String.mk (trimChars r.dist)
    wellNumber :=
      if trimChars r.wellNum = "null".data then ""
      else String.mk (trimChars r.wellNum)
    displayId := String.mk (trimChars r.did)
    displayName := String.mk (trimChars r.dname) }

/-- All option-regex matches of a document, in document order (uncapped). -/
def leaseRawMatchesAll (html : String) : List LeaseRaw :=
  scanLeases html.data.length html.data

/-- All lease records of a document, in document order (uncapped). -/
def leaseRecordsAll (html : String) : List LeaseRecord :=
  (leaseRawMatchesAll html).map mkLeaseRecord

/-- The lease list actually produced by `searchLeases` (lines 96–109):
matches collected in document order, capped at 50. -/
def searchLeasesOf (html : String) : List LeaseRecord :=
  (scanLeasesCapped html.data.length 50 html.data).map mkLeaseRecord

/-! ## Production extraction (`getProduction`, lines 147–193) -/

/-- Result of `html.match(/class="DataGrid">([\s\S]*?)<\/TABLE>/)`: the text
between the first `class="DataGrid">` and the first `</TABLE>` after it. -/
def gridOf (html : List Char) : Option (List Char) :=
  (dropThrough "class=\"DataGrid\">".data html).bind fun r =>
    (takeUntilLit "</TABLE>".data r).map Prod.fst

/-- Attempt `/<TR[^>]*>([\s\S]*?)<\/TR>/i` (resp. TD) at the head of the
input: case-insensitive open literal, a maximal run of non-`>` characters,
`>`, then the lazily-captured content up to the first closing literal. -/
def matchTagAt («open» close : List Char) (l : List Char) :
    Option (List Char × List Char) :=
  (dropLitCI «open» l).bind fun r0 =>
  (fun r1 : List Char =>
    match r1 with
    | '>' :: r2 => takeUntilLitCI close r2
    | _ => none)
  (r0.dropWhile (fun c => c ≠ '>'))

/-- The `g`-loop collecting every tag-delimited content fragment. -/
def scanTag («open» close : List Char) : Nat → List Char → List (List Char)
  | 0, _ => []
  | _ + 1, [] => []
  | fuel + 1, c :: rest =>
    match matchTagAt «open» close (c :: rest) with
    | some (content, rest2) => content :: scanTag «open» close fuel rest2
    | none => scanTag «open» close fuel rest

/-- Global replace of `/<[^>]+>/g` by the empty string (tag stripping). -/
def removeTags : Nat → List Char → List Char
  | 0, _ => []
  | _ + 1, [] => []
  | fuel + 1, c :: rest =>
    if c = '<' then
      match takeWhile1 (fun ch => ch ≠ '>') rest with
      | some (_, r1) =>
        match r1 with
        | '>' :: r2 => removeTags fuel r2
        | _ => c :: removeTags fuel rest
      | none => c :: removeTags fuel rest
    else c :: removeTags fuel rest

/-- Global replace of the literal `pat` by the empty string. -/
def removeLit (pat : List Char) : Nat → List Char → List Char
  | 0, _ => []
  | _ + 1, [] => []
  | fuel + 1, c :: rest =>
    match dropLit pat (c :: rest) with
    | some r => removeLit pat fuel r
    | none => c :: removeLit pat fuel rest

/-- Line 163: clean one `<TD>` capture — strip tags, strip `&nbsp;`,
strip commas, trim. -/
def cleanCell (cell : List Char) : String :=
  String.mk (trimChars (((removeLit "&nbsp;".data
    (removeTags cell.length cell).length
    (removeTags cell.length cell)).filter (fun c => c ≠ ','))))

/-- All rows of the grid content: every `<TR>` fragment split into its
cleaned `<TD>` cells. -/
def tableRows (grid : List Char) : List (List String) :=
  (scanTag "<TR".data "</TR>".data grid.length grid).map fun tr =>
    (scanTag "<TD".data "</TD>".data tr.length tr).map cleanCell

/-- Line 165: keep a row only if it has cells and its first cell does not
contain `Message`. -/
def keepRow (cells : List String) : Bool :=
  match cells with
  | [] => false
  | c0 :: _ => !(containsStr "Message" c0)

/-- Well-type-specific production record (the tagged union of the output). -/
inductive ProductionRecord where
  | oil (month : String) (oilBBL casingheadGasMCF wellCount : Int)
      («operator» fieldName : String)
  | gas (month : String) (gasMCF condensateBBL wellCount : Int)
      («operator» fieldName : String)
deriving Repr, DecidableEq

/-- The `month` field of either variant. -/
def ProductionRecord.month : ProductionRecord → String
  | .oil m _ _ _ _ _ => m
  | .gas m _ _ _ _ _ => m

/-- Whether the record is the Gas variant. -/
def ProductionRecord.isGas : ProductionRecord → Bool
  | .oil _ _ _ _ _ _ => false
  | .gas _ _ _ _ _ _ => true

/-- Lines 171–190: map one kept row positionally into the variant selected
by `type === 'Oil'`; out-of-range cells read as `''`, numeric cells go
through `parseInt(_) || 0`. -/
def mapRow (type_ : String) (r : List String) : ProductionRecord :=
  if type_ = "Oil" then
    .oil (r.getD 0 "") (intOrZero (r.getD 1 "")) (intOrZero (r.getD 2 ""))
      (intOrZero (r.getD 3 "")) (r.getD 5 "") (r.getD 7 "")
  else
    .gas (r.getD 0 "") (intOrZero (r.getD 1 "")) (intOrZero (r.getD 2 ""))
      (intOrZero (r.getD 3 "")) (r.getD 5 "") (r.getD 7 "")

/-- Row filtering, mapping and the final `.filter(r => r.month)`. -/
def produceRows (type_ : String) (rs : List (List String)) : List ProductionRecord :=
  (((rs.filter keepRow).map (mapRow type_)).filter (fun r => r.month != ""))

/-- Outcome of `getProduction` as far as parsing is concerned: the `error`
field (absent on success) and the `data` list. -/
structure ProdResult where
  error : Option String
  data : List ProductionRecord
deriving Repr, DecidableEq

/-- Embedding of the parsing part of `getProduction` (lines 147–193) as a
function of the POSTed-back response `html` and the caller's `type`. -/
def getProductionOf (html : String) (type_ : String) : ProdResult :=
  match gridOf html.data with
  | none =>
    if containsStr "No Matches" html then
      ⟨some "No production data found", []⟩
    else
      ⟨some "Could not parse response", []⟩
  | some grid => ⟨none, produceRows type_ (tableRows grid)⟩

/-! ## Request routing (`fetch`, lines 10–45) -/

/-- A parsed inbound request: the path and the raw query parameters
(`searchParams.get` yields `none` for an absent parameter). -/
structure Req where
  path : String
  name : Option String
  district : Option String
  lease : Option String
  typ : Option String
deriving Repr, DecidableEq

/-- JS `x || d` for a `searchParams.get` result: `null` and `''` both
fall back to the default. -/
def orDefault (o : Option String) (d : String) : String :=
  match o with
  | none => d
  | some s => if s = "" then d else s

/-- What the worker does with a request before any outbound traffic:
either it responds immediately (no outbound network call is made), or it
proceeds into `searchLeases` / `getProduction`, each of which begins with
outbound upstream calls. -/
inductive Action where
  | respond (status : Nat) (error : Option String)
  | search (name district : String)
  | production (lease district type_ : String)
deriving Repr, DecidableEq

/-- Embedding of the routing logic of `fetch` (lines 19–40). -/
def route (req : Req) : Action :=
  if req.path = "/search" then
    let name := jsToUpper (jsTrim (req.name.getD ""))
    let district := orDefault req.district "None Selected"
    if name = "" then .respond 400 (some "Missing name")
    else .search name district
  else if req.path = "/production" then
    let lease := req.lease.getD ""
    let district := req.district.getD ""
    let type_ := orDefault req.typ "Oil"
    if lease = "" || district = "" then
      .respond 400 (some "Missing lease or district")
    else .production lease district type_
  else
    .respond 404 (some "Use GET /search?name=X or GET /production?lease=X&district=X&type=Oil")

/-- Lines 125–134: the URL-encoded form fields submitted for a
production query. -/
def productionForm (type_ lease district : String) : List (String × String) :=
  [("wellType", type_), ("leaseNumber", lease), ("district", district),
   ("startMonth", "01"), ("startYear", "1993"),
   ("endMonth", "12"), ("endYear", "2026"), ("submit", "Submit")]

/-- A row whose first cell (read as the code reads it, `r[0] || ''`) is
nonempty and free of the `Message` marker — the rows the spec calls data
rows (everything else is a status/malformed row). -/
def goodHead (r : List String) : Bool :=
  !(r.getD 0 "" == "" || containsStr "Message" (r.getD 0 ""))

/-- A minimal production response fixture: one `DataGrid` table holding a
single data row, with a thousands separator in the oil-volume cell. -/
def prodFixture : String :=
  "<TABLE class=\"DataGrid\"><TR><TD>01/2024</TD><TD>1,234</TD><TD>56</TD><TD>2</TD><TD>x</TD><TD>OPERATOR X</TD><TD>x</TD><TD>FIELD Y</TD></TR></TABLE>"

/-- A one-cell production fixture (only the month column is present). -/
def prodFixtureSmall : String :=
  "class=\"DataGrid\"><TR><TD>01/2024</TD></TR></TABLE>"

/-- A lease-search response fixture whose single match carries the
literal `null` well-number placeholder. -/
def leaseFixture : String :=
  "<option value=\"777^0^N^1^G^2^08^3^null\">(08-777):N</option>"

/-- The raw captures of the single match in `leaseFixture`. -/
def leaseFixtureRaw : LeaseRaw :=
  ⟨"777".data, "N".data, 'G', "08".data, "null".data, "08-777".data, "N".data⟩

/-! ## Supporting lemmas -/

theorem dw_idem {α : Type} (p : α → Bool) (l : List α) :
    (l.dropWhile p).dropWhile p = l.dropWhile p := by
  induction l with
  | nil => rfl
  | cons c t ih =>
    by_cases h : p c <;> simp [List.dropWhile_cons, h, ih]

theorem dw_append {α : Type} (p : α → Bool) (l : List α) :
    ∃ t, t ++ l.dropWhile p = l := by
  induction l with
  | nil => exact ⟨[], rfl⟩
  | cons c t ih =>
    by_cases h : p c
    · obtain ⟨s, hs⟩ := ih
      exact ⟨c :: s, by simp [List.dropWhile_cons, h, hs]⟩
    · exact ⟨[], by simp [List.dropWhile_cons, h]⟩

theorem dw_length_le {α : Type} (p : α → Bool) (l : List α) :
    (l.dropWhile p).length ≤ l.length := by
  obtain ⟨t, ht⟩ := dw_append p l
  conv_rhs => rw [← ht]
  rw [List.length_append]
  exact Nat.le_add_left _ _

theorem dw_eq_self_append {α : Type} {p : α → Bool} {x y : List α}
    (h : (x ++ y).dropWhile p = x ++ y) : x.dropWhile p = x := by
  cases x with
  | nil => rfl
  | cons c t =>
    rw [List.cons_append, List.dropWhile_cons] at h
    by_cases hc : p c
    · rw [if_pos hc] at h
      have hle := dw_length_le p (t ++ y)
      rw [h] at hle
      simp at hle
    · simp [List.dropWhile_cons, hc]

theorem trimChars_idem (l : List Char) : trimChars (trimChars l) = trimChars l := by
  have hm : (l.dropWhile jsWS).dropWhile jsWS = l.dropWhile jsWS := dw_idem _ _
  obtain ⟨t, ht⟩ := dw_append jsWS (l.dropWhile jsWS).reverse
  have hrev : ((l.dropWhile jsWS).reverse.dropWhile jsWS).reverse.dropWhile jsWS =
      ((l.dropWhile jsWS).reverse.dropWhile jsWS).reverse := by
    apply dw_eq_self_append (y := t.reverse)
    rw [← List.reverse_append, ht, List.reverse_reverse]
    exact hm
  unfold trimChars
  rw [hrev, List.reverse_reverse, dw_idem]

theorem dw_eq_self_of_no_sat {α : Type} {p : α → Bool} {l : List α}
    (h : ∀ c ∈ l, p c = false) : l.dropWhile p = l := by
  cases l with
  | nil => rfl
  | cons c t =>
    rw [List.dropWhile_cons, if_neg]
    simp [h c (by simp)]

theorem trimChars_eq_self_of_no_ws {l : List Char}
    (h : ∀ c ∈ l, jsWS c = false) : trimChars l = l := by
  unfold trimChars
  rw [dw_eq_self_of_no_sat h, dw_eq_self_of_no_sat, List.reverse_reverse]
  intro c hc
  exact h c (List.mem_reverse.mp hc)

theorem digit_not_ws {c : Char} (h : c.isDigit = true) : jsWS c = false := by
  by_cases hw : jsWS c = true
  · exfalso
    simp only [jsWS, Bool.or_eq_true, decide_eq_true_eq] at hw
    rcases hw with (((((rfl | rfl) | rfl) | rfl) | rfl) | rfl) | rfl <;>
      exact absurd h (by decide)
  · simpa using hw

theorem scanLeasesCapped_eq_take :
    ∀ (fuel cap : Nat) (l : List Char),
      scanLeasesCapped fuel cap l = (scanLeases fuel l).take cap := by
  intro fuel
  induction fuel with
  | zero => intro cap l; simp [scanLeasesCapped, scanLeases]
  | succ f ih =>
    intro cap l
    cases l with
    | nil => simp [scanLeasesCapped, scanLeases]
    | cons c rest =>
      rw [scanLeasesCapped, scanLeases]
      cases hm : matchLeaseAt (c :: rest) with
      | none => exact ih cap rest
      | some pr =>
        obtain ⟨r, rest2⟩ := pr
        cases cap with
        | zero => simp
        | succ cap' => simp [ih cap' rest2]

theorem takeWhile1_eq_some {p : Char → Bool} {l : List Char}
    {q : List Char × List Char} (h : takeWhile1 p l = some q) :
    q.1 = l.takeWhile p ∧ q.2 = l.dropWhile p := by
  unfold takeWhile1 at h
  split at h
  · exact absurd h (by simp)
  · rename_i heq
    rw [← Option.some_inj.mp h]
    exact ⟨heq.symm, rfl⟩

theorem matchLeaseAt_num {l : List Char} {r : LeaseRaw} {rest : List Char}
    (h : matchLeaseAt l = some (r, rest)) : r.num.all Char.isDigit = true := by
  unfold matchLeaseAt at h
  simp only [Option.bind_eq_some] at h
  obtain ⟨r0, h0, h⟩ := h
  obtain ⟨p1, h1, h⟩ := h
  obtain ⟨r2, h2, h⟩ := h
  obtain ⟨p2, h3, h⟩ := h
  obtain ⟨r4, h4, h⟩ := h
  obtain ⟨p3, h5, h⟩ := h
  obtain ⟨r6, h6, h⟩ := h
  obtain ⟨p4, h7, h⟩ := h
  obtain ⟨r8, h8, h⟩ := h
  obtain ⟨r10, h10, h⟩ := h
  obtain ⟨p6, h11, h⟩ := h
  obtain ⟨r12, h12, h⟩ := h
  obtain ⟨p7, h13, h⟩ := h
  injection h with h
  injection h with hA hB
  rw [← hA]
  have hnum := (takeWhile1_eq_some h1).1
  simp only [hnum, List.all_eq_true]
  intro x hx
  exact List.mem_takeWhile_imp hx

theorem scanLeases_num_digits :
    ∀ (fuel : Nat) (l : List Char) (r : LeaseRaw),
      r ∈ scanLeases fuel l → r.num.all Char.isDigit = true := by
  intro fuel
  induction fuel with
  | zero => intro l r h; simp [scanLeases] at h
  | succ f ih =>
    intro l r h
    cases l with
    | nil => simp [scanLeases] at h
    | cons c rest =>
      rw [scanLeases] at h
      cases hm : matchLeaseAt (c :: rest) with
      | none =>
        rw [hm] at h
        exact ih rest r h
      | some pr =>
        obtain ⟨r', rest2⟩ := pr
        rw [hm] at h
        rcases List.mem_cons.mp h with rfl | hmem
        · exact matchLeaseAt_num hm
        · exact ih rest2 r hmem

theorem mapRow_month (type_ : String) (r : List String) :
    (mapRow type_ r).month = r.getD 0 "" := by
  unfold mapRow
  split <;> rfl

theorem mapRow_isGas {type_ : String} (h : type_ ≠ "Oil") (r : List String) :
    (mapRow type_ r).isGas = true := by
  unfold mapRow
  rw [if_neg h]
  rfl

theorem produceRows_cons (type_ : String) (r : List String) (rs : List (List String)) :
    produceRows type_ (r :: rs) =
      (if keepRow r = true then
        (if (mapRow type_ r).month != "" then [mapRow type_ r] else [])
       else []) ++ produceRows type_ rs := by
  unfold produceRows
  rw [List.filter_cons]
  by_cases hk : keepRow r = true
  · rw [if_pos hk, if_pos hk, List.map_cons, List.filter_cons]
    by_cases hm : (mapRow type_ r).month != ""
    · rw [if_pos hm, if_pos hm]
      rfl
    · rw [if_neg hm, if_neg hm]
      rfl
  · rw [if_neg hk, if_neg hk]
    rfl

theorem produceRows_month_ne {type_ : String} {rs : List (List String)}
    {rec : ProductionRecord} (h : rec ∈ produceRows type_ rs) : rec.month ≠ "" := by
  unfold produceRows at h
  have := (List.mem_filter.mp h).2
  simpa using this

theorem getProductionOf_data_eq (html type_ : String) {grid : List Char}
    (hg : gridOf html.data = some grid) :
    getProductionOf html type_ = ⟨none, produceRows type_ (tableRows grid)⟩ := by
  unfold getProductionOf
  rw [hg]

/-! ## Claims -/

/-- Claim C10: for every production request, the submitted date-range
fields are the fixed constants 01/1993 – 12/2026; the form-building
function takes every caller-controlled input (well type, lease number,
district) as an argument, and the four date fields are the same constants
whatever those arguments are. -/
theorem c10_date_range_constant (type_ lease district : String) :
    (productionForm type_ lease district).lookup "startMonth" = some "01" ∧
    (productionForm type_ lease district).lookup "startYear" = some "1993" ∧
    (productionForm type_ lease district).lookup "endMonth" = some "12" ∧
    (productionForm type_ lease district).lookup "endYear" = some "2026" :=
  ⟨rfl, rfl, rfl, rfl⟩

/-- Claim C8: a `/search` request whose `name` parameter is missing or
whitespace-only (empty after trimming) is answered directly with status
400 and the `Missing name` error payload; in particular the route's
action is never the `search` action, which is the only `/search` path
that performs outbound network calls (session fetch, form submission). -/
theorem c8_missing_name_400 (req : Req) (hp : req.path = "/search")
    (hname : jsTrim (req.name.getD "") = "") :
    route req = Action.respond 400 (some "Missing name") ∧
    ∀ n d, route req ≠ Action.search n d := by
  have hr : route req = Action.respond 400 (some "Missing name") := by
    unfold route
    rw [hp, if_pos rfl, hname]
    rfl
  refine ⟨hr, fun n d => ?_⟩
  rw [hr]
  intro hcontra
  exact Action.noConfusion hcontra

/-- Claim C8 witness at a concrete request (whitespace-only `name`). -/
theorem c8_missing_name_400_witness :
    route ⟨"/search", some " ", some "08", none, none⟩ =
      Action.respond 400 (some "Missing name") :=
  (c8_missing_name_400 ⟨"/search", some " ", some "08", none, none⟩ rfl (by decide)).1

/-- Claim C3: whenever the `DataGrid` table region is absent from a
production response, the result is the no-data outcome
`{ error: "No production data found", data: [] }` when the document
contains the `No Matches` marker, and otherwise the distinct parse-failure
outcome `{ error: "Could not parse response", data: [] }` — in both cases
an explicit error with empty data, never a silently empty success. -/
theorem c3_no_grid_outcomes (html type_ : String)
    (hg : gridOf html.data = none) :
    (containsStr "No Matches" html = true →
      getProductionOf html type_ = ⟨some "No production data found", []⟩) ∧
    (containsStr "No Matches" html = false →
      getProductionOf html type_ = ⟨some "Could not parse response", []⟩) ∧
    ("No production data found" : String) ≠ "Could not parse response" := by
  refine ⟨fun h => ?_, fun h => ?_, by decide⟩ <;>
    · unfold getProductionOf
      rw [hg]
      simp [h]

/-- Claim C3 witness: a document consisting only of the marker phrase. -/
theorem c3_no_grid_outcomes_witness :
    getProductionOf "No Matches" "Oil" = ⟨some "No production data found", []⟩ :=
  (c3_no_grid_outcomes "No Matches" "Oil" (by decide)).1 (by decide)

/-- Claim C4: the lease extraction output is exactly the first 50 of the
full in-document-order match list (`leaseRecordsAll`, whose scanner walks
the document left to right emitting matches as encountered), so its
length is at most 50, its element order is the order of the matching
fragments in the document, and extraction past the cap contributes
nothing regardless of how many further matches exist. -/
theorem c4_cap_and_order (html : String) :
    searchLeasesOf html = (leaseRecordsAll html).take 50 ∧
    (searchLeasesOf html).length ≤ 50 := by
  have h : searchLeasesOf html = (leaseRecordsAll html).take 50 := by
    unfold searchLeasesOf leaseRecordsAll leaseRawMatchesAll
    rw [scanLeasesCapped_eq_take, List.map_take]
  refine ⟨h, ?_⟩
  rw [h, List.length_take]
  exact min_le_left _ _

/-- Claim C9: at the `/production` interface a missing `type` parameter
defaults to `"Oil"`, and any `type` other than exactly `"Oil"` is not
rejected but makes every emitted record the Gas variant. -/
theorem c9_type_default_and_gas_variant :
    (∀ (req : Req) (l d : String), req.path = "/production" → req.typ = none →
      req.lease = some l → l ≠ "" → req.district = some d → d ≠ "" →
      route req = Action.production l d "Oil") ∧
    (∀ (html type_ : String), type_ ≠ "Oil" →
      ∀ rec ∈ (getProductionOf html type_).data, rec.isGas = true) := by
  constructor
  · intro req l d hp ht hl hlne hd hdne
    unfold route
    rw [hp]
    rw [if_neg (by decide), if_pos rfl, hl, ht, hd]
    simp [orDefault, hlne, hdne]
  · intro html type_ hty rec hrec
    cases hg : gridOf html.data with
    | none =>
      unfold getProductionOf at hrec
      rw [hg] at hrec
      by_cases hnm : containsStr "No Matches" html <;> simp [hnm] at hrec
    | some grid =>
      rw [getProductionOf_data_eq html type_ hg] at hrec
      unfold produceRows at hrec
      obtain ⟨hmem, -⟩ := List.mem_filter.mp hrec
      obtain ⟨row, -, hrow⟩ := List.mem_map.mp hmem
      rw [← hrow]
      exact mapRow_isGas hty row

/-- Claim C9 witness: the default applied at a concrete request, and a
Gas-variant record emitted for the concrete non-`Oil` type `"gas"`. -/
theorem c9_type_default_and_gas_variant_witness :
    route ⟨"/production", none, some "08", some "26086", none⟩ =
      Action.production "26086" "08" "Oil" ∧
    (ProductionRecord.gas "01/2024" 0 0 0 "" "").isGas = true :=
  ⟨c9_type_default_and_gas_variant.1 ⟨"/production", none, some "08", some "26086", none⟩
      "26086" "08" rfl rfl rfl (by decide) rfl (by decide),
   c9_type_default_and_gas_variant.2 prodFixtureSmall "gas" (by decide)
      (ProductionRecord.gas "01/2024" 0 0 0 "" "") (by decide)⟩

set_option maxRecDepth 16384

/-- Claim C5: the example production row, whose raw cell contents are
`["01/2024", "1,234", "56", "2", "x", "OPERATOR X", "x", "FIELD Y"]`,
maps under well type `Oil` to
`{ month := "01/2024", oilBBL := 1234, casingheadGasMCF := 56,
wellCount := 2, operator := "OPERATOR X", fieldName := "FIELD Y" }` — the
thousands-separator comma is stripped by the cell cleanup that runs
before the positional numeric parsing (first conjunct: cleanup then map;
second conjunct: the same row flowing through the whole extraction
pipeline from the fixture document).  Third conjunct: non-numeric and
missing numeric cells default to zero rather than failing the row. -/
theorem c5_example_row_mapping :
    mapRow "Oil" (["01/2024", "1,234", "56", "2", "x", "OPERATOR X", "x",
        "FIELD Y"].map (fun s => cleanCell s.data)) =
      ProductionRecord.oil "01/2024" 1234 56 2 "OPERATOR X" "FIELD Y" ∧
    getProductionOf prodFixture "Oil" =
      ⟨none, [ProductionRecord.oil "01/2024" 1234 56 2 "OPERATOR X" "FIELD Y"]⟩ ∧
    mapRow "Oil" ["01/2024", "abc"] =
      ProductionRecord.oil "01/2024" 0 0 0 "" "" :=
  ⟨by decide, by decide, by decide⟩

/-- Claim C6: every record emitted by production extraction has a
non-empty month (first conjunct, over any response document and type);
and rows whose first cleaned cell is empty or contains the `Message`
marker contribute no record — removing them beforehand does not change
the output (second conjunct, over the row pipeline the extractor runs on
the grid rows). -/
theorem c6_month_nonempty_and_status_rows_dropped :
    (∀ (html type_ : String), ∀ rec ∈ (getProductionOf html type_).data,
      rec.month ≠ "") ∧
    (∀ (type_ : String) (rs : List (List String)),
      produceRows type_ rs = produceRows type_ (rs.filter goodHead)) := by
  constructor
  · intro html type_ rec hrec
    cases hg : gridOf html.data with
    | none =>
      unfold getProductionOf at hrec
      rw [hg] at hrec
      by_cases hnm : containsStr "No Matches" html <;> simp [hnm] at hrec
    | some grid =>
      rw [getProductionOf_data_eq html type_ hg] at hrec
      exact produceRows_month_ne hrec
  · intro type_ rs
    induction rs with
    | nil => rfl
    | cons r rs ih =>
      rw [List.filter_cons, produceRows_cons]
      by_cases hgh : goodHead r = true
      · rw [if_pos hgh, produceRows_cons, ih]
      · rw [if_neg hgh, ← ih]
        simp only [goodHead, Bool.not_eq_true', Bool.not_eq_false,
          Bool.or_eq_true, beq_iff_eq] at hgh
        rcases hgh with h0 | hM
        · by_cases hk : keepRow r = true
          · rw [if_pos hk, if_neg, List.nil_append]
            rw [mapRow_month, h0]
            simp
          · rw [if_neg hk, List.nil_append]
        · have hk : keepRow r = false := by
            cases r with
            | nil => rfl
            | cons c0 rt =>
              unfold keepRow
              simp only [List.getD, List.get?_cons_zero, Option.getD_some] at hM
              simp [hM]
          rw [hk]
          simp

/-- Claim C6 witness: the non-empty-month invariant instantiated at the
record extracted from the small fixture. -/
theorem c6_month_nonempty_witness :
    (ProductionRecord.oil "01/2024" 0 0 0 "" "").month ≠ "" :=
  c6_month_nonempty_and_status_rows_dropped.1 prodFixtureSmall "Oil"
    (ProductionRecord.oil "01/2024" 0 0 0 "" "") (by decide)

theorem jsTrim_mk_trim (l : List Char) :
    jsTrim (String.mk (trimChars l)) = String.mk (trimChars l) := by
  show String.mk (trimChars (trimChars l)) = String.mk (trimChars l)
  exact congrArg String.mk (trimChars_idem l)

/-- Claim C7: for every fragment matched by the lease scanner, a
well-number capture that trims to the literal placeholder `null` yields a
record with `wellNumber = ""`, and every string field of the produced
record is whitespace-trimmed (equal to its own trim — the lease number is
untouched by the code but consists of digits, which carry no
whitespace). -/
theorem c7_null_normalization_and_trimming (html : String) (raw : LeaseRaw)
    (hraw : raw ∈ leaseRawMatchesAll html) :
    (trimChars raw.wellNum = "null".data → (mkLeaseRecord raw).wellNumber = "") ∧
    jsTrim (mkLeaseRecord raw).leaseNumber = (mkLeaseRecord raw).leaseNumber ∧
    jsTrim (mkLeaseRecord raw).leaseName = (mkLeaseRecord raw).leaseName ∧
    jsTrim (mkLeaseRecord raw).wellType = (mkLeaseRecord raw).wellType ∧
    jsTrim (mkLeaseRecord raw).district = (mkLeaseRecord raw).district ∧
    jsTrim (mkLeaseRecord raw).wellNumber = (mkLeaseRecord raw).wellNumber ∧
    jsTrim (mkLeaseRecord raw).displayId = (mkLeaseRecord raw).displayId ∧
    jsTrim (mkLeaseRecord raw).displayName = (mkLeaseRecord raw).displayName := by
  unfold leaseRawMatchesAll at hraw
  have hdig := scanLeases_num_digits html.data.length html.data raw hraw
  refine ⟨fun h => by simp [mkLeaseRecord, h], ?_, ?_, ?_, ?_, ?_, ?_, ?_⟩
  · show jsTrim (String.mk raw.num) = String.mk raw.num
    refine congrArg String.mk (trimChars_eq_self_of_no_ws fun c hc => ?_)
    exact digit_not_ws (List.all_eq_true.mp hdig c hc)
  · exact jsTrim_mk_trim raw.lname
  · by_cases hwt : raw.wt = 'O' <;> simp [mkLeaseRecord, hwt] <;> decide
  · exact jsTrim_mk_trim raw.dist
  · by_cases hn : trimChars raw.wellNum = "null".data
    · simp only [mkLeaseRecord, if_pos hn]
      decide
    · simp only [mkLeaseRecord, if_neg hn]
      exact jsTrim_mk_trim raw.wellNum
  · exact jsTrim_mk_trim raw.did
  · exact jsTrim_mk_trim raw.dname

/-- Claim C7 witness: the single match of `leaseFixture` carries the
`null` placeholder and produces an empty well number. -/
theorem c7_null_normalization_witness :
    (mkLeaseRecord leaseFixtureRaw).wellNumber = "" :=
  (c7_null_normalization_and_trimming leaseFixture leaseFixtureRaw
    (by decide)).1 (by decide)

/-- Claim C1 counterexample: an upstream response whose `Set-Cookie`
header carries a session value (`ABC`) but whose body text has no
`jsessionid` marker.  The header source yields a value, yet session
acquisition fails with `No session`: the code never uses the header (or
any redirect URL) as a source for the identifier, so the claimed
header-first fallback chain does not hold. -/
theorem c1_session_sources_counterexample :
    getSessionOf "hello" ["JSESSIONID=ABC; Path=/"] = Except.error "No session" ∧
    firstCookie ["JSESSIONID=ABC; Path=/"] = some "ABC" :=
  ⟨rfl, rfl⟩

/-- Claim C1 (amended): the session identifier is extracted solely from
the response body text (which, redirects having been followed, is where
a redirect-URL session segment or body marker would appear); acquisition
fails with `No session` exactly when the body yields no match, regardless
of the headers.  The `Set-Cookie` headers are consulted only to choose
the cookie string, which falls back to the body-derived identifier. -/
theorem c1_session_from_body_only (body : String) (setCookies : List String) :
    (getSessionOf body setCookies = Except.error "No session" ↔
      findJsession body.data.length body.data = none) ∧
    (∀ s, getSessionOf body setCookies = Except.ok s →
      s.cookie = "JSESSIONID=" ++ ((firstCookie setCookies).getD s.id)) := by
  unfold getSessionOf
  cases hj : findJsession body.data.length body.data with
  | none =>
    simp only [hj]
    constructor
    · simp
    · intro s h
      exact absurd h (by simp)
  | some v =>
    simp only [hj]
    cases hc : firstCookie setCookies with
    | none =>
      simp only [hc]
      constructor
      · simp
      · intro s h
        injection h with h
        subst h
        rfl
    | some c =>
      simp only [hc]
      constructor
      · simp
      · intro s h
        injection h with h
        subst h
        rfl

/-- Claim C1 amended witness: a body containing a session marker yields a
session whose cookie is built from the body identifier (no headers). -/
theorem c1_session_from_body_only_witness :
    (⟨"AAA", "JSESSIONID=AAA"⟩ : Session).cookie =
      "JSESSIONID=" ++ ((firstCookie []).getD (⟨"AAA", "JSESSIONID=AAA"⟩ : Session).id) :=
  (c1_session_from_body_only "x;jsessionid=AAA&y" []).2 ⟨"AAA", "JSESSIONID=AAA"⟩ rfl

/-- Claim C2 counterexample: when the body-derived identifier (`AAA`) and
the `Set-Cookie` header value (`BBB`) disagree, the constructed Session
has `id = "AAA"` but `cookie = "JSESSIONID=BBB"`: the cookie does not
carry the same identifier as `id`, so the invariant does not hold for
every Session the code constructs. -/
theorem c2_cookie_id_counterexample :
    getSessionOf "x;jsessionid=AAA&y" ["JSESSIONID=BBB; Path=/"] =
      Except.ok ⟨"AAA", "JSESSIONID=BBB"⟩ ∧
    ("JSESSIONID=BBB" : String) ≠ "JSESSIONID=" ++ "AAA" :=
  ⟨rfl, by decide⟩

/-- Claim C2 (amended): the cookie carries the same identifier as `id`
whenever no `Set-Cookie` header supplies a `JSESSIONID` value (the
fallback `JSESSIONID=<id>` is used); when a header does supply one, the
cookie carries the header's value, which need not equal `id`. -/
theorem c2_cookie_matches_id (body : String) (setCookies : List String)
    (s : Session) (hok : getSessionOf body setCookies = Except.ok s) :
    (firstCookie setCookies = none → s.cookie = "JSESSIONID=" ++ s.id) ∧
    (∀ c, firstCookie setCookies = some c → s.cookie = "JSESSIONID=" ++ c) := by
  unfold getSessionOf at hok
  cases hj : findJsession body.data.length body.data with
  | none =>
    rw [hj] at hok
    exact absurd hok (by simp)
  | some v =>
    rw [hj] at hok
    cases hc : firstCookie setCookies with
    | none =>
      rw [hc] at hok
      injection hok with h
      subst h
      exact ⟨fun _ => rfl, fun c hcc => absurd hcc (by simp)⟩
    | some c0 =>
      rw [hc] at hok
      injection hok with h
      subst h
      refine ⟨fun hcc => absurd hcc (by simp), fun c hcc => ?_⟩
      injection hcc with hcc
      rw [hcc]

/-- Claim C2 amended witness: with no `Set-Cookie` headers, the cookie of
the constructed Session is `JSESSIONID=` followed by its id. -/
theorem c2_cookie_matches_id_witness :
    (⟨"AAA", "JSESSIONID=AAA"⟩ : Session).cookie =
      "JSESSIONID=" ++ (⟨"AAA", "JSESSIONID=AAA"⟩ : Session).id :=
  (c2_cookie_matches_id "x;jsessionid=AAA&y" [] ⟨"AAA", "JSESSIONID=AAA"⟩ rfl).1 rfl

end PDQ
